import Mathlib

/-!
Verification of the option-chain core of this repository
(src/utils/option_chain.py and src/utils/websocket_manager.py).

Shallow embedding conventions:
* Python floats are modelled as exact rationals; Python ints as Lean integers.
* Python dicts keyed by strike (or by symbol) are modelled as lists carrying
  the dict update-or-insert semantics explicitly; insertion order is the
  list order, as in Python 3.7+ dicts.
* Fields read with data.get are modelled as Option values; the Python falsy
  test on a numeric value is the test against 0, and on a string the test
  against the empty string.
* Python string operations are modelled on the character lists underlying
  Lean strings so that every definition evaluates inside the kernel.
-/

set_option allowUnsafeReducibility true in
attribute [semireducible] Rat.add Rat.mul Rat.inv Rat.sub Rat.neg

namespace OptionChain

/-- Python round to nearest integer, ties to even (banker's rounding), as
used by the source on the exact value ltp / strike_step. -/
def pyRound (q : ℚ) : ℤ :=
  let f : ℤ := ⌊q⌋
  let frac : ℚ := q - f
  if frac < 1/2 then f
  else if 1/2 < frac then f + 1
  else if f % 2 = 0 then f else f + 1

/-- Python round at 2 decimal places (used for pcr). -/
def pyRound2 (q : ℚ) : ℚ := (pyRound (q * 100) : ℚ) / 100

/-- Python int() truncation toward zero of a numeric value. -/
def pyTrunc (q : ℚ) : ℤ := if 0 ≤ q then ⌊q⌋ else ⌈q⌉

/-- Python str.zfill(2): left-pad with zeros to width 2 (the inputs the
source feeds it are unsigned digit strings). -/
def pyZfill2 (s : String) : String :=
  if s.data.length ≥ 2 then s
  else String.mk (List.replicate (2 - s.data.length) '0') ++ s

/-- Python str.split on a one-character separator, on character lists. -/
def splitOnCharAux (sep : Char) : List Char → List Char → List (List Char)
  | [], acc => [acc.reverse]
  | c :: rest, acc =>
    if c = sep then acc.reverse :: splitOnCharAux sep rest []
    else splitOnCharAux sep rest (c :: acc)

/-- Python expiry.split of the source, with separator the dash. -/
def pySplitDash (s : String) : List String :=
  (splitOnCharAux '-' s.data []).map String.mk

/-- Python str.upper. -/
def pyUpper (s : String) : String := String.mk (s.data.map Char.toUpper)

/-- Python slicing s[:n]. -/
def pyTakeStr (s : String) (n : Nat) : String := String.mk (s.data.take n)

/-- Python str.replace of one character by the empty string. -/
def pyRemoveChar (s : String) (c : Char) : String :=
  String.mk (s.data.filter (fun x => x ≠ c))

/-- First index at which needle occurs as a contiguous sublist of hay
(Python substring containment and str.index). -/
def findSub (hay needle : List Char) : Option Nat :=
  match hay with
  | [] => if needle.isEmpty then some 0 else none
  | _ :: t =>
    if needle.isPrefixOf hay then some 0
    else (findSub t needle).map (· + 1)

/-- Month names scanned by construct_option_symbol for dash-less expiries. -/
def monthNames : List String :=
  ["JAN", "FEB", "MAR", "APR", "MAY", "JUN",
   "JUL", "AUG", "SEP", "OCT", "NOV", "DEC"]

/-- Python str.isdigit: non-empty and all decimal digits. -/
def pyIsDigit (s : String) : Bool := !s.data.isEmpty && s.data.all Char.isDigit

/-- The month-scan fallback of construct_option_symbol for an expiry string
without a dash: find the first month name occurring in the cleaned uppercase
string, take up to two preceding characters as the day (defaulting to 01
when absent or non-numeric), and fall back to 28AUG when no month occurs. -/
def parseExpiryScan (clean : String) : String :=
  match monthNames.findSome? (fun mon =>
    (findSub clean.data mon.data).map (fun idx => (mon, idx))) with
  | some (mon, idx) =>
    let start : Nat := idx - 2
    let day : String := String.mk ((clean.data.drop start).take (idx - start))
    let day2 : String := if !pyIsDigit day then "01" else day
    pyZfill2 day2 ++ mon
  | none => "28AUG"

/-- construct_option_symbol from option_chain.py, for a string expiry (the
states modelled here always carry string expiries, so the datetime and
non-string branches of the source are unreachable).  A non-integral strike
would be rendered by the source through Python float repr, which has no
rational counterpart; every strike the program constructs is integral. -/
def construct_option_symbol (underlying expiry : String) (strike : ℚ)
    (option_type : String) : String :=
  let expiry_formatted : String :=
    let parts := pySplitDash expiry
    if parts.length ≥ 2 then
      pyZfill2 (parts.headD "") ++ pyTakeStr (pyUpper (parts.getD 1 "")) 3
    else
      parseExpiryScan (pyUpper (pyRemoveChar expiry '-'))
  let strike_str : String :=
    if strike.den = 1 then toString strike.num else toString strike
  underlying ++ expiry_formatted ++ "25" ++ strike_str ++ option_type

/-- One side (CE or PE) of a strike row: the ce_data / pe_data dicts. -/
structure SideQuote where
  ltp : ℚ
  bid : ℚ
  ask : ℚ
  bid_qty : ℤ
  ask_qty : ℤ
  spread : ℚ
  volume : ℤ
  oi : ℤ
deriving Repr, DecidableEq

/-- The all-zero side initialised by generate_strikes. -/
def zeroQuote : SideQuote :=
  { ltp := 0, bid := 0, ask := 0, bid_qty := 0, ask_qty := 0,
    spread := 0, volume := 0, oi := 0 }

/-- One entry of the option_data dict. -/
structure StrikeRow where
  strike : ℤ
  tag : String
  position : ℤ
  ce_symbol : String
  pe_symbol : String
  ce_data : SideQuote
  pe_data : SideQuote
deriving Repr, DecidableEq

/-- One value of the subscription_map dict: strike and option type. -/
structure RouteInfo where
  strike : ℤ
  otype : String
deriving Repr, DecidableEq

/-- The mutable state of an OptionChainManager.  The api_client, websocket
manager, cache and monitoring flag do not influence the data claims and are
kept outside the state; REST responses enter as explicit arguments. -/
structure ChainState where
  underlying : String
  expiry : String
  strike_step : ℤ
  option_data : List StrikeRow
  subscription_map : List (String × RouteInfo)
  underlying_ltp : ℚ
  underlying_bid : ℚ
  underlying_ask : ℚ
  atm_strike : ℤ
  initialized : Bool
deriving Repr, DecidableEq

/-- The constructor of OptionChainManager. -/
def mkManager (underlying expiry : String) : ChainState :=
  { underlying := underlying
    expiry := expiry
    strike_step := if underlying = "NIFTY" then 50 else 100
    option_data := []
    subscription_map := []
    underlying_ltp := 0
    underlying_bid := 0
    underlying_ask := 0
    atm_strike := 0
    initialized := false }

/-- Result of the REST quotes call: success with the data dict fields the
source reads, or any non-success status / raised exception. -/
inductive ApiResp where
  | ok (ltp : ℚ) (bid ask : Option ℚ)
  | err
deriving Repr, DecidableEq

/-- calculate_atm: returns the value the Python method returns together
with the updated state.  The cached branch fires when the stored underlying
LTP is truthy and positive, which for a rational is exactly positivity. -/
def calculate_atm (s : ChainState) (resp : ApiResp) : ℤ × ChainState :=
  if 0 < s.underlying_ltp then
    let atm := pyRound (s.underlying_ltp / (s.strike_step : ℚ)) * s.strike_step
    (atm, { s with atm_strike := atm })
  else
    match resp with
    | .ok ltp bid ask =>
      let s1 := { s with underlying_ltp := ltp,
                         underlying_bid := bid.getD ltp,
                         underlying_ask := ask.getD ltp }
      if 0 < ltp then
        let atm := pyRound (ltp / (s1.strike_step : ℚ)) * s1.strike_step
        (atm, { s1 with atm_strike := atm })
      else (0, s1)
    | .err => (0, s)

/-- One element of the strikes list built by generate_strikes. -/
structure StrikeInfo where
  strike : ℤ
  tag : String
  position : ℤ
deriving Repr, DecidableEq

/-- The ITM part of the strikes list: range(20, 0, -1). -/
def itmList (atm step : ℤ) : List StrikeInfo :=
  (List.range 20).map (fun j =>
    let i : ℕ := 20 - j
    { strike := atm - (i : ℤ) * step, tag := "ITM" ++ toString i,
      position := -(i : ℤ) })

/-- The OTM part of the strikes list: range(1, 21). -/
def otmList (atm step : ℤ) : List StrikeInfo :=
  (List.range 20).map (fun j =>
    let i : ℕ := j + 1
    { strike := atm + (i : ℤ) * step, tag := "OTM" ++ toString i,
      position := (i : ℤ) })

/-- The full strikes list of generate_strikes, in construction order. -/
def strikesList (atm step : ℤ) : List StrikeInfo :=
  itmList atm step ++ [{ strike := atm, tag := "ATM", position := 0 }]
    ++ otmList atm step

/-- Python dict assignment option_data[strike] = row: replace in place when
the key exists, else append. -/
def insertRow (l : List StrikeRow) (r : StrikeRow) : List StrikeRow :=
  if l.any (fun x => x.strike = r.strike) then
    l.map (fun x => if x.strike = r.strike then r else x)
  else l ++ [r]

/-- Python dict assignment subscription_map[symbol] = info. -/
def insertRoute (l : List (String × RouteInfo)) (k : String) (v : RouteInfo) :
    List (String × RouteInfo) :=
  if l.any (fun x => x.1 = k) then
    l.map (fun x => if x.1 = k then (k, v) else x)
  else l ++ [(k, v)]

/-- The row generate_strikes builds for one strikes-list entry. -/
def mkRow (underlying expiry : String) (info : StrikeInfo) : StrikeRow :=
  { strike := info.strike, tag := info.tag, position := info.position,
    ce_symbol := construct_option_symbol underlying expiry (info.strike : ℚ) "CE",
    pe_symbol := construct_option_symbol underlying expiry (info.strike : ℚ) "PE",
    ce_data := zeroQuote, pe_data := zeroQuote }

/-- The loop body of generate_strikes: insert the row for one strikes-list
entry and its two routing entries. -/
def genStep (st : ChainState) (info : StrikeInfo) : ChainState :=
  let row := mkRow st.underlying st.expiry info
  let ceInfo : RouteInfo := { strike := info.strike, otype := "CE" }
  let peInfo : RouteInfo := { strike := info.strike, otype := "PE" }
  let st1 := { st with option_data := insertRow st.option_data row }
  let st2 := { st1 with
    subscription_map := insertRoute st1.subscription_map row.ce_symbol ceInfo }
  { st2 with
    subscription_map := insertRoute st2.subscription_map row.pe_symbol peInfo }

/-- generate_strikes: skipped when the ATM strike is falsy (zero); otherwise
inserts the 41 rows and the two routing entries per row. -/
def generate_strikes (s : ChainState) : ChainState :=
  if s.atm_strike = 0 then s
  else (strikesList s.atm_strike s.strike_step).foldl genStep s

/-- initialize of OptionChainManager (named init_chain because the source
name is a Lean keyword).  setup_depth_subscriptions only talks to the
websocket collaborator and does not touch the fields modelled here.  The
method returns True on every path. -/
def init_chain (s : ChainState) (resp : ApiResp) : ChainState × Bool :=
  if s.initialized then (s, true)
  else
    let s1 := (calculate_atm s resp).2
    let s2 := generate_strikes s1
    ({ s2 with initialized := true }, true)

/-- get_strike_position: 0 while ATM is falsy, else Python floor division. -/
def get_strike_position (s : ChainState) (strike : ℤ) : ℤ :=
  if s.atm_strike = 0 then 0
  else Int.fdiv (strike - s.atm_strike) s.strike_step

/-- get_position_tag. -/
def get_position_tag (position : ℤ) : String :=
  if position = 0 then "ATM"
  else if 0 < position then "OTM" ++ toString position.natAbs
  else "ITM" ++ toString position.natAbs

/-- update_option_tags: recompute position and tag of every row. -/
def update_option_tags (s : ChainState) : ChainState :=
  { s with option_data := s.option_data.map (fun r =>
      let pos := get_strike_position s r.strike
      { r with position := pos, tag := get_position_tag pos }) }

/-- A quote tick as read by handle_quote_update. -/
structure QuoteTick where
  symbol : Option String
  ltp : Option ℚ
  bid : Option ℚ
  ask : Option ℚ
deriving Repr, DecidableEq

/-- handle_quote_update.  The resp argument feeds calculate_atm on the
branch where the freshly stored LTP is not positive (a negative tick) and
the source falls through to the REST fetch; for a positive tick the cached
branch is taken and resp is unread.  The batch resubscription in the
generate branch only talks to the websocket collaborator. -/
def handle_quote_update (s : ChainState) (t : QuoteTick) (resp : ApiResp) :
    ChainState :=
  let symbol := t.symbol.getD ""
  if symbol = s.underlying then
    let ltp := t.ltp.getD 0
    if ltp ≠ 0 then
      let s1 : ChainState := { s with underlying_ltp := ltp }
      let old_atm : ℤ := s1.atm_strike
      let pair : ℤ × ChainState := calculate_atm s1 resp
      let s2 : ChainState := { pair.2 with atm_strike := pair.1 }
      let s3 : ChainState :=
        if old_atm ≠ s2.atm_strike then
          if s2.option_data = [] then generate_strikes s2
          else update_option_tags s2
        else s2
      { s3 with underlying_bid := t.bid.getD 0, underlying_ask := t.ask.getD 0 }
    else s
  else s

/-- One entry of a bids/asks list: a dict with price and quantity, a
list/tuple of length at least 2, or anything else (which the source leaves
at the zero defaults). -/
inductive BookEntry where
  | obj (price : Option ℚ) (quantity : Option ℚ)
  | pair (price : ℚ) (qty : ℚ)
  | malformed
deriving Repr, DecidableEq

/-- The nested depth dict with its alternative key spellings. -/
structure DepthBook where
  buy : Option (List BookEntry)
  bids : Option (List BookEntry)
  sell : Option (List BookEntry)
  asks : Option (List BookEntry)
deriving Repr, DecidableEq

/-- A depth tick as read by handle_depth_update.  depth = none models both
a missing depth key and an empty (falsy) depth dict. -/
structure DepthTick where
  symbol : Option String
  symbolCap : Option String
  trading_symbol : Option String
  depth : Option DepthBook
  bids : Option (List BookEntry)
  asks : Option (List BookEntry)
  ltp : Option ℚ
  last_price : Option ℚ
  volume : Option ℚ
  oi : Option ℚ
deriving Repr, DecidableEq

/-- data.get of symbol, Symbol, trading_symbol chained with Python or. -/
def effSymbol (t : DepthTick) : String :=
  let s1 := t.symbol.getD ""
  if s1 ≠ "" then s1
  else
    let s2 := t.symbolCap.getD ""
    if s2 ≠ "" then s2 else t.trading_symbol.getD ""

/-- data.get ltp or data.get last_price or 0. -/
def effLtp (t : DepthTick) : ℚ :=
  let a := t.ltp.getD 0
  if a ≠ 0 then a else t.last_price.getD 0

/-- Best price and size from the head of a bids/asks list, zero defaults. -/
def bestOf (entries : List BookEntry) : ℚ × ℚ :=
  match entries with
  | [] => (0, 0)
  | e :: _ =>
    match e with
    | .obj p q => (p.getD 0, q.getD 0)
    | .pair p q => (p, q)
    | .malformed => (0, 0)

/-- The depth_data dict built by handle_depth_update from a tick. -/
def mkDepthData (t : DepthTick) : SideQuote :=
  let bids := match t.depth with
    | some bk => bk.buy.getD (bk.bids.getD [])
    | none => t.bids.getD []
  let asks := match t.depth with
    | some bk => bk.sell.getD (bk.asks.getD [])
    | none => t.asks.getD []
  let ltp := effLtp t
  let bb := bestOf bids
  let ba := bestOf asks
  let d : SideQuote :=
    { ltp := if ltp ≠ 0 then ltp else 0
      bid := if bb.1 ≠ 0 then bb.1 else 0
      ask := if ba.1 ≠ 0 then ba.1 else 0
      bid_qty := if bb.2 ≠ 0 then pyTrunc bb.2 else 0
      ask_qty := if ba.2 ≠ 0 then pyTrunc ba.2 else 0
      spread := 0
      volume := pyTrunc (t.volume.getD 0)
      oi := pyTrunc (t.oi.getD 0) }
  if 0 < d.bid ∧ 0 < d.ask then { d with spread := d.ask - d.bid } else d

/-- update_option_depth: replace one side of the row keyed by strike. -/
def update_option_depth (s : ChainState) (strike : ℤ) (otype : String)
    (d : SideQuote) : ChainState :=
  if s.option_data.any (fun r => r.strike = strike) then
    { s with option_data := s.option_data.map (fun r =>
        if r.strike = strike then
          (if otype = "CE" then { r with ce_data := d }
           else { r with pe_data := d })
        else r) }
  else s

/-- handle_depth_update: route by symbol through subscription_map; unknown
symbols fall through without any change. -/
def handle_depth_update (s : ChainState) (t : DepthTick) : ChainState :=
  match s.subscription_map.lookup (effSymbol t) with
  | some info => update_option_depth s info.strike info.otype (mkDepthData t)
  | none => s

/-- The market_metrics dict of calculate_market_metrics. -/
structure MarketMetrics where
  total_ce_volume : ℤ
  total_pe_volume : ℤ
  total_volume : ℤ
  total_ce_oi : ℤ
  total_pe_oi : ℤ
  pcr : ℚ
deriving Repr, DecidableEq

/-- calculate_market_metrics. -/
def calculate_market_metrics (s : ChainState) : MarketMetrics :=
  let total_ce_volume : ℤ := (s.option_data.map (fun o => o.ce_data.volume)).sum
  let total_pe_volume : ℤ := (s.option_data.map (fun o => o.pe_data.volume)).sum
  let total_ce_oi : ℤ := (s.option_data.map (fun o => o.ce_data.oi)).sum
  let total_pe_oi : ℤ := (s.option_data.map (fun o => o.pe_data.oi)).sum
  let pcr : ℚ :=
    if 0 < total_ce_oi then (total_pe_oi : ℚ) / (total_ce_oi : ℚ) else 0
  { total_ce_volume := total_ce_volume
    total_pe_volume := total_pe_volume
    total_volume := total_ce_volume + total_pe_volume
    total_ce_oi := total_ce_oi
    total_pe_oi := total_pe_oi
    pcr := pyRound2 pcr }

/-- A concrete one-row state with CE oi 4 and PE oi 6, for witnesses. -/
def sampleRow : StrikeRow :=
  { strike := 100, tag := "ATM", position := 0,
    ce_symbol := "", pe_symbol := "",
    ce_data := { zeroQuote with oi := 4 },
    pe_data := { zeroQuote with oi := 6 } }

/-- A concrete state holding sampleRow. -/
def sampleMetricsState : ChainState :=
  { mkManager "NIFTY" "28-AUG-25" with option_data := [sampleRow] }

/-- A concrete initialised manager: NIFTY at LTP 24537, so ATM 24550 and a
full 41-row grid. -/
def csInitState : ChainState :=
  (init_chain (mkManager "NIFTY" "28-AUG-25") (ApiResp.ok 24537 none none)).1

/-- The far-move quote tick driving ATM outside the generated window. -/
def farTick : QuoteTick :=
  { symbol := some "NIFTY", ltp := some 30000, bid := none, ask := none }

/-- A quote tick with a tiny positive LTP, driving ATM to zero. -/
def tinyTick : QuoteTick :=
  { symbol := some "NIFTY", ltp := some 20, bid := none, ask := none }

/-- An in-window quote tick moving ATM from 24550 to 24600. -/
def nearTick : QuoteTick :=
  { symbol := some "NIFTY", ltp := some 24610, bid := none, ask := none }

/-- A depth tick for the generated CE symbol at strike 24600, with
pair-shaped book entries. -/
def ceDepthTick : DepthTick :=
  { symbol := some "NIFTY28AUG2524600CE", symbolCap := none,
    trading_symbol := none, depth := none,
    bids := some [BookEntry.pair 120 75], asks := some [BookEntry.pair 121 50],
    ltp := some (241 / 2), last_price := none,
    volume := some 1000, oi := some 500 }

/-- A depth tick whose symbol is routed nowhere. -/
def unknownTick : DepthTick :=
  { symbol := some "UNKNOWN", symbolCap := none, trading_symbol := none,
    depth := none, bids := none, asks := none, ltp := none,
    last_price := none, volume := none, oi := none }

/-- A quote tick moving ATM back down to 24450. -/
def backTick : QuoteTick :=
  { symbol := some "NIFTY", ltp := some 24450, bid := none, ask := none }

/-- A live, non-pristine state: the initialised grid after the in-window
ATM move to 24600 and a depth update on the 24600 CE side. -/
def liveState : ChainState :=
  handle_depth_update (handle_quote_update csInitState nearTick ApiResp.err)
    ceDepthTick

end OptionChain

namespace WSM

/-- A subscription dict as passed to subscribe; recorded in the
subscriptions set by its serialised form, which is injective on these
dicts, so the set is modelled as a deduplicated list of the dicts. -/
structure Subscription where
  symbol : String
  exchange : String
  mode : String
deriving Repr, DecidableEq

/-- The outbound subscribe message sent over the socket. -/
structure SubMsg where
  symbol : String
  exchange : String
  modeNum : ℤ
  depthLevel : ℤ
deriving Repr, DecidableEq

/-- mode_map.get(mode, 1). -/
def mode_map (m : String) : ℤ :=
  if m = "ltp" then 1 else if m = "quote" then 2
  else if m = "depth" then 3 else 1

/-- The message subscribe builds for a subscription dict. -/
def mkSubMsg (sub : Subscription) : SubMsg :=
  { symbol := sub.symbol, exchange := sub.exchange,
    modeNum := mode_map sub.mode, depthLevel := 5 }

/-- The market_data dict shape probed by process_market_data: presence of
the depth, bids and open keys. -/
structure MData where
  hasDepth : Bool
  hasBids : Bool
  hasOpen : Bool
deriving Repr, DecidableEq

/-- A parsed inbound message as probed by on_message: its type and status
fields, its outer ltp field, and its market-data payload (the data key when
present, else the message itself). -/
structure WsMsg where
  mtype : Option String
  status : Option String
  ltp : Option ℚ
  nested : Option MData
  topData : MData
deriving Repr, DecidableEq

/-- State of ProfessionalWebSocketManager.  Handlers are abstract values of
type H; wsPresent models self.ws being non-None. -/
structure WSState (H : Type) where
  wsPresent : Bool
  active : Bool
  authenticated : Bool
  subscriptions : List Subscription
  quote_handlers : List H
  depth_handlers : List H
  ltp_handlers : List H
deriving Repr

/-- register_handler. -/
def register_handler {H : Type} (w : WSState H) (mode : String) (h : H) :
    WSState H :=
  if mode = "quote" then { w with quote_handlers := w.quote_handlers ++ [h] }
  else if mode = "depth" then { w with depth_handlers := w.depth_handlers ++ [h] }
  else if mode = "ltp" then { w with ltp_handlers := w.ltp_handlers ++ [h] }
  else w

/-- subscribe: rejected unless the socket exists and is authenticated;
otherwise send the message, record the subscription (set add), and report
success.  Returns (state, returned bool, messages sent). -/
def subscribe {H : Type} (w : WSState H) (sub : Subscription) :
    WSState H × Bool × List SubMsg :=
  if !w.wsPresent || !w.authenticated then (w, false, [])
  else
    ({ w with subscriptions :=
        if sub ∈ w.subscriptions then w.subscriptions
        else w.subscriptions ++ [sub] },
     true, [mkSubMsg sub])

/-- resubscribe_all: re-issue subscribe for every recorded subscription. -/
def resubscribe_all {H : Type} (w : WSState H) : WSState H × List SubMsg :=
  w.subscriptions.foldl (fun acc sub =>
    let r := subscribe acc.1 sub
    (r.1, acc.2 ++ r.2.2)) (w, [])

/-- The per-handler loop of process_market_data: each handler is run inside
try/except, so a raising handler (step returning error) leaves the handler
state unchanged and the loop continues.  Returns the final handler state
and the handlers invoked, in order. -/
def runHandlers {H σ : Type} (step : H → MData → σ → Except Unit σ)
    (hs : List H) (md : MData) (st : σ) : σ × List H :=
  hs.foldl (fun acc h =>
    match step h md acc.1 with
    | .ok st2 => (st2, acc.2 ++ [h])
    | .error _ => (acc.1, acc.2 ++ [h])) (st, [])

/-- The mode classification of process_market_data. -/
def dataMode (md : MData) : String :=
  if md.hasDepth || md.hasBids then "depth"
  else if md.hasOpen then "quote"
  else "ltp"

/-- process_market_data: extract the nested payload, classify, and route.
The source has branches only for depth and quote; an ltp-classified message
reaches no handler. -/
def process_market_data {H σ : Type} (step : H → MData → σ → Except Unit σ)
    (w : WSState H) (st : σ) (m : WsMsg) : σ × List H :=
  if dataMode (m.nested.getD m.topData) = "depth" then
    runHandlers step w.depth_handlers (m.nested.getD m.topData) st
  else if dataMode (m.nested.getD m.topData) = "quote" then
    runHandlers step w.quote_handlers (m.nested.getD m.topData) st
  else (st, [])

/-- on_message: auth messages drive the state machine and are never
forwarded; a message with a market_data type or any ltp field goes to
process_market_data.  Returns (socket state, subscribe messages sent,
handler state, handlers invoked). -/
def on_message {H σ : Type} (step : H → MData → σ → Except Unit σ)
    (w : WSState H) (st : σ) (m : WsMsg) :
    WSState H × List SubMsg × σ × List H :=
  if m.mtype = some "auth" then
    if m.status = some "success" then
      let w1 : WSState H := { w with authenticated := true }
      if w1.subscriptions ≠ [] then
        let r := resubscribe_all w1
        (r.1, r.2, st, [])
      else (w1, [], st, [])
    else (w, [], st, [])
  else if m.mtype = some "market_data" ∨ m.ltp ≠ none then
    let r := process_market_data step w st m
    (w, [], r.1, r.2)
  else (w, [], st, [])

/-- The state built by the manager constructor: no socket, nothing
registered. -/
def initWS (H : Type) : WSState H :=
  { wsPresent := false, active := false, authenticated := false,
    subscriptions := [], quote_handlers := [], depth_handlers := [],
    ltp_handlers := [] }

/-- connect: create the socket, reset authentication, mark active. -/
def connect {H : Type} (w : WSState H) : WSState H :=
  { w with wsPresent := true, authenticated := false, active := true }

/-- A concrete subscription dict. -/
def subA : Subscription :=
  { symbol := "NIFTY", exchange := "NSE_INDEX", mode := "quote" }

/-- A parsed auth-success message. -/
def authMsg : WsMsg :=
  { mtype := some "auth", status := some "success", ltp := none,
    nested := none,
    topData := { hasDepth := false, hasBids := false, hasOpen := false } }

/-- A plain LTP tick: an ltp field and none of depth, bids or open. -/
def ltpMsg : WsMsg :=
  { mtype := none, status := none, ltp := some 5, nested := none,
    topData := { hasDepth := false, hasBids := false, hasOpen := false } }

/-- A market-data message with a depth field. -/
def depthMsg : WsMsg :=
  { mtype := some "market_data", status := none, ltp := none, nested := none,
    topData := { hasDepth := true, hasBids := false, hasOpen := false } }

/-- A connected manager with one registered ltp handler. -/
def wsLtp : WSState ℕ := register_handler (connect (initWS ℕ)) "ltp" 0

/-- A connected manager with two registered depth handlers. -/
def wsDD : WSState ℕ :=
  register_handler (register_handler (connect (initWS ℕ)) "depth" 0) "depth" 1

/-- A connected, authenticated manager holding one recorded
subscription. -/
def wsWithSub : WSState ℕ :=
  { connect (initWS ℕ) with subscriptions := [subA] }

end WSM

namespace OptionChain

/-! Helper lemmas. -/

lemma pyRound2_zero : pyRound2 0 = 0 := by decide

lemma append_ne_ATM (pre t : String) (hpre : pre = "OTM" ∨ pre = "ITM") :
    pre ++ t ≠ "ATM" := by
  intro h
  have hd : (pre ++ t).data = "ATM".data := by rw [h]
  rw [String.data_append] at hd
  rcases hpre with h1 | h1 <;> subst h1
  · have hd2 : ('O' :: 'T' :: 'M' :: t.data : List Char) = ['A', 'T', 'M'] := hd
    injection hd2 with hc
    exact absurd hc (by decide)
  · have hd2 : ('I' :: 'T' :: 'M' :: t.data : List Char) = ['A', 'T', 'M'] := hd
    injection hd2 with hc
    exact absurd hc (by decide)

/-- The tag computed by get_position_tag is the ATM tag exactly at 0. -/
lemma get_position_tag_eq_ATM_iff (p : ℤ) :
    get_position_tag p = "ATM" ↔ p = 0 := by
  constructor
  · intro h
    by_contra hp
    unfold get_position_tag at h
    rw [if_neg hp] at h
    by_cases h0 : 0 < p
    · rw [if_pos h0] at h
      exact append_ne_ATM _ _ (Or.inl rfl) h
    · rw [if_neg h0] at h
      exact append_ne_ATM _ _ (Or.inr rfl) h
  · intro h
    simp [h, get_position_tag]

/-- The offsets minus 20 to plus 20 in generation order. -/
def gridPositions : List ℤ := (List.range 41).map (fun (j : ℕ) => (j : ℤ) - 20)

lemma gridPositions_chunks :
    gridPositions
      = (List.range 20).map (fun (j : ℕ) => (j : ℤ) - 20) ++ [(0 : ℤ)]
          ++ (List.range 20).map (fun (j : ℕ) => (j : ℤ) + 1) := by decide

lemma itmList_map_position (atm step : ℤ) :
    (itmList atm step).map StrikeInfo.position
      = (List.range 20).map (fun (j : ℕ) => (j : ℤ) - 20) := by
  simp only [itmList, List.map_map]
  refine List.map_congr_left ?_
  intro j hj
  rw [List.mem_range] at hj
  show -((20 - j : ℕ) : ℤ) = (j : ℤ) - 20
  omega

lemma otmList_map_position (atm step : ℤ) :
    (otmList atm step).map StrikeInfo.position
      = (List.range 20).map (fun (j : ℕ) => (j : ℤ) + 1) := by
  simp only [otmList, List.map_map]
  refine List.map_congr_left ?_
  intro j hj
  show ((j + 1 : ℕ) : ℤ) = (j : ℤ) + 1
  omega

lemma strikesList_map_position (atm step : ℤ) :
    (strikesList atm step).map StrikeInfo.position = gridPositions := by
  rw [gridPositions_chunks]
  simp only [strikesList, List.map_append, List.map_cons, List.map_nil]
  rw [itmList_map_position, otmList_map_position]

lemma strikesList_length (atm step : ℤ) : (strikesList atm step).length = 41 := by
  simp [strikesList, itmList, otmList]

/-- Every entry of the strikes list sits at atm plus position times step and
carries the tag of its position. -/
lemma strikesList_info (atm step : ℤ) :
    ∀ info ∈ strikesList atm step,
      info.strike = atm + info.position * step
      ∧ info.tag = get_position_tag info.position := by
  intro info hmem
  simp only [strikesList, List.mem_append, List.mem_singleton, itmList,
    otmList, List.mem_map, List.mem_range] at hmem
  rcases hmem with (⟨j, hj, rfl⟩ | rfl) | ⟨j, hj, rfl⟩
  · constructor
    · show atm - ((20 - j : ℕ) : ℤ) * step = atm + -((20 - j : ℕ) : ℤ) * step
      ring
    · have hne : -((20 - j : ℕ) : ℤ) ≠ 0 := by omega
      have hneg : ¬ (0 < -((20 - j : ℕ) : ℤ)) := by omega
      show ("ITM" ++ toString (20 - j) : String)
        = get_position_tag (-((20 - j : ℕ) : ℤ))
      rw [get_position_tag, if_neg hne, if_neg hneg, Int.natAbs_neg,
        Int.natAbs_ofNat]
  · exact ⟨by show atm = atm + 0 * step; ring, by rfl⟩
  · constructor
    · show atm + ((j + 1 : ℕ) : ℤ) * step = atm + ((j + 1 : ℕ) : ℤ) * step
      rfl
    · have hne : ((j + 1 : ℕ) : ℤ) ≠ 0 := by omega
      have hpos : (0 : ℤ) < ((j + 1 : ℕ) : ℤ) := by omega
      show ("OTM" ++ toString (j + 1) : String)
        = get_position_tag ((j + 1 : ℕ) : ℤ)
      rw [get_position_tag, if_neg hne, if_pos hpos, Int.natAbs_ofNat]

lemma strikesList_map_strike (atm step : ℤ) :
    (strikesList atm step).map StrikeInfo.strike
      = gridPositions.map (fun k => atm + k * step) := by
  rw [← strikesList_map_position atm step, List.map_map]
  exact List.map_congr_left (fun info h => (strikesList_info atm step info h).1)

lemma strikesList_strikes_nodup (atm step : ℤ) (h : 0 < step) :
    ((strikesList atm step).map StrikeInfo.strike).Nodup := by
  rw [strikesList_map_strike]
  refine List.Nodup.map ?_ (by decide)
  intro k1 k2 hk
  simp only at hk
  have h3 : k1 * step = k2 * step := by linarith
  exact mul_right_cancel₀ (by omega : step ≠ 0) h3

/-- Generic counting lemma: a predicate holding at exactly one index below
n is seen exactly once along range n. -/
lemma countP_range_eq_one (n j0 : ℕ) (p : ℕ → Bool) (hj0 : j0 < n)
    (hp : ∀ j, j < n → (p j = true ↔ j = j0)) :
    (List.range n).countP p = 1 := by
  induction n with
  | zero => omega
  | succ m ih =>
    rw [List.range_succ, List.countP_append, List.countP_singleton]
    by_cases hj : j0 = m
    · subst hj
      have h1 : (List.range j0).countP p = 0 := by
        rw [List.countP_eq_zero]
        intro x hx hpx
        rw [List.mem_range] at hx
        have := (hp x (by omega)).mp hpx
        omega
      have h2 : p j0 = true := (hp j0 (by omega)).mpr rfl
      rw [h1, if_pos h2]
    · have h2 : ¬ p m = true := fun hpm => hj ((hp m (by omega)).mp hpm).symm
      rw [ih (by omega) (fun j hjm => hp j (by omega)), if_neg h2]

/-- An offset d inside the window occurs exactly once among the positions
of the strikes list. -/
lemma countP_strikesList_position (atm step d : ℤ) (h1 : -20 ≤ d) (h2 : d ≤ 20) :
    (strikesList atm step).countP (fun info => info.position = d) = 1 := by
  have hm := strikesList_map_position atm step
  have hc : (strikesList atm step).countP (fun info => info.position = d)
      = ((strikesList atm step).map StrikeInfo.position).countP
          (fun k => k = d) := by
    rw [List.countP_map]
    rfl
  rw [hc, hm, gridPositions, List.countP_map]
  refine countP_range_eq_one 41 (d + 20).toNat _ (by omega) ?_
  intro j hj
  simp only [Function.comp, decide_eq_true_eq]
  omega

/-- An offset d inside the window occurs exactly once among the grid
positions. -/
lemma countP_gridPositions (d : ℤ) (h1 : -20 ≤ d) (h2 : d ≤ 20) :
    gridPositions.countP (fun k => k = d) = 1 := by
  rw [gridPositions, List.countP_map]
  refine countP_range_eq_one 41 (d + 20).toNat _ (by omega) ?_
  intro j hj
  simp only [Function.comp, decide_eq_true_eq]
  omega

/-- genStep changes only the rows and the routing table. -/
lemma genStep_fields (st : ChainState) (info : StrikeInfo) :
    (genStep st info).underlying = st.underlying
    ∧ (genStep st info).expiry = st.expiry
    ∧ (genStep st info).strike_step = st.strike_step
    ∧ (genStep st info).atm_strike = st.atm_strike
    ∧ (genStep st info).underlying_ltp = st.underlying_ltp
    ∧ (genStep st info).underlying_bid = st.underlying_bid
    ∧ (genStep st info).underlying_ask = st.underlying_ask
    ∧ (genStep st info).initialized = st.initialized :=
  ⟨rfl, rfl, rfl, rfl, rfl, rfl, rfl, rfl⟩

lemma genFold_fields (l : List StrikeInfo) (st : ChainState) :
    (l.foldl genStep st).underlying = st.underlying
    ∧ (l.foldl genStep st).expiry = st.expiry
    ∧ (l.foldl genStep st).strike_step = st.strike_step
    ∧ (l.foldl genStep st).atm_strike = st.atm_strike
    ∧ (l.foldl genStep st).underlying_ltp = st.underlying_ltp
    ∧ (l.foldl genStep st).underlying_bid = st.underlying_bid
    ∧ (l.foldl genStep st).underlying_ask = st.underlying_ask
    ∧ (l.foldl genStep st).initialized = st.initialized := by
  induction l generalizing st with
  | nil => exact ⟨rfl, rfl, rfl, rfl, rfl, rfl, rfl, rfl⟩
  | cons i t ih => exact ih (genStep st i)

lemma insertRow_fresh (l : List StrikeRow) (r : StrikeRow)
    (h : ∀ x ∈ l, x.strike ≠ r.strike) : insertRow l r = l ++ [r] := by
  unfold insertRow
  rw [if_neg]
  simp only [List.any_eq_true, decide_eq_true_eq, not_exists, not_and]
  exact h

/-- Folding genStep over fresh, pairwise distinct strikes appends exactly
one row per entry in order. -/
lemma genFold_option_data (l : List StrikeInfo) (st : ChainState)
    (hnodup : (l.map StrikeInfo.strike).Nodup)
    (hfresh : ∀ i ∈ l, ∀ r ∈ st.option_data, r.strike ≠ i.strike) :
    (l.foldl genStep st).option_data
      = st.option_data ++ l.map (mkRow st.underlying st.expiry) := by
  induction l generalizing st with
  | nil => simp
  | cons i t ih =>
    rw [List.foldl_cons]
    have hrow : (genStep st i).option_data
        = st.option_data ++ [mkRow st.underlying st.expiry i] :=
      insertRow_fresh _ _ (fun x hx => hfresh i (by simp) x hx)
    have htail := ih (genStep st i)
      (by
        rw [List.map_cons] at hnodup
        exact (List.nodup_cons.mp hnodup).2)
      (by
        intro j hj r hr
        rw [hrow, List.mem_append] at hr
        rcases hr with hr | hr
        · exact hfresh j (List.mem_cons_of_mem _ hj) r hr
        · rw [List.mem_singleton] at hr
          subst hr
          intro hcontra
          have hik : i.strike = j.strike := hcontra
          have hmem : i.strike ∈ t.map StrikeInfo.strike := by
            rw [hik]
            exact List.mem_map_of_mem StrikeInfo.strike hj
          rw [List.map_cons] at hnodup
          exact (List.nodup_cons.mp hnodup).1 hmem)
    rw [htail, hrow]
    have hu : (genStep st i).underlying = st.underlying := rfl
    have he : (genStep st i).expiry = st.expiry := rfl
    rw [hu, he, List.map_cons, List.append_assoc]
    rfl

/-- The rows generate_strikes builds from an empty grid. -/
lemma generate_strikes_rows (s : ChainState) (hstep : 0 < s.strike_step)
    (h0 : s.option_data = []) (hA : s.atm_strike ≠ 0) :
    (generate_strikes s).option_data
      = (strikesList s.atm_strike s.strike_step).map
          (mkRow s.underlying s.expiry) := by
  unfold generate_strikes
  rw [if_neg hA]
  rw [genFold_option_data _ _ (strikesList_strikes_nodup _ _ hstep)
    (by rw [h0]; intro i _ r hr; simp at hr), h0]
  rfl

/-- generate_strikes changes only the rows and the routing table. -/
lemma generate_strikes_fields (s : ChainState) :
    (generate_strikes s).underlying = s.underlying
    ∧ (generate_strikes s).expiry = s.expiry
    ∧ (generate_strikes s).strike_step = s.strike_step
    ∧ (generate_strikes s).atm_strike = s.atm_strike
    ∧ (generate_strikes s).underlying_ltp = s.underlying_ltp
    ∧ (generate_strikes s).underlying_bid = s.underlying_bid
    ∧ (generate_strikes s).underlying_ask = s.underlying_ask
    ∧ (generate_strikes s).initialized = s.initialized := by
  unfold generate_strikes
  by_cases h : s.atm_strike = 0
  · rw [if_pos h]
    exact ⟨rfl, rfl, rfl, rfl, rfl, rfl, rfl, rfl⟩
  · rw [if_neg h]
    exact genFold_fields _ _

/-- Python floor division agrees with the rational floor for a positive
divisor. -/
lemma fdiv_eq_floor (a b : ℤ) (hb : 0 < b) :
    Int.fdiv a b = ⌊(a : ℚ) / (b : ℚ)⌋ := by
  obtain ⟨n, rfl⟩ : ∃ n : ℕ, b = (n : ℤ) :=
    ⟨b.toNat, (Int.toNat_of_nonneg (le_of_lt hb)).symm⟩
  rw [Int.fdiv_eq_ediv a (le_of_lt hb)]
  rw [show (((n : ℤ) : ℚ)) = ((n : ℕ) : ℚ) by push_cast; ring]
  exact (Rat.floor_intCast_div_natCast a n).symm

/-- C1 (amended): for every strike step S > 0 and price P > 0 obtained by
the initial quote fetch, the ATM strike equals round(P/S)*S and is a
multiple of S; and, provided that rounded ATM is non-zero, strike
generation produces exactly 41 rows with 41 distinct strike keys, whose
positions are exactly -20..20 in order, each row tagged ITM(-p) for
negative position p, ATM for position 0 and OTM(p) for positive p.  (As
stated the claim fails when round(P/S) = 0: generation is skipped and no
rows are produced; see the counterexample.) -/
theorem C1_atm_and_grid (s : ChainState) (P : ℚ) (b a : Option ℚ)
    (hstep : 0 < s.strike_step) (hcache : s.underlying_ltp ≤ 0)
    (hinit : s.initialized = false) (hempty : s.option_data = [])
    (hP : 0 < P)
    (hA : pyRound (P / (s.strike_step : ℚ)) * s.strike_step ≠ 0) :
    (init_chain s (.ok P b a)).1.atm_strike
        = pyRound (P / (s.strike_step : ℚ)) * s.strike_step
    ∧ s.strike_step ∣ (init_chain s (.ok P b a)).1.atm_strike
    ∧ (init_chain s (.ok P b a)).1.option_data.length = 41
    ∧ ((init_chain s (.ok P b a)).1.option_data.map StrikeRow.strike).Nodup
    ∧ (init_chain s (.ok P b a)).1.option_data.map StrikeRow.position
        = gridPositions
    ∧ ∀ r ∈ (init_chain s (.ok P b a)).1.option_data,
        r.strike = (init_chain s (.ok P b a)).1.atm_strike
            + r.position * s.strike_step
        ∧ r.tag = get_position_tag r.position := by
  have hnlt : ¬ (0 < s.underlying_ltp) := not_lt.mpr hcache
  set A : ℤ := pyRound (P / (s.strike_step : ℚ)) * s.strike_step with hAdef
  set s1 : ChainState :=
    { s with
        underlying_ltp := P
        underlying_bid := b.getD P
        underlying_ask := a.getD P
        atm_strike := A } with hs1
  have hcalc : calculate_atm s (.ok P b a) = (A, s1) := by
    rw [calculate_atm, if_neg hnlt]
    simp only [if_pos hP]
  have hinitc : init_chain s (.ok P b a)
      = ({ generate_strikes s1 with initialized := true }, true) := by
    rw [init_chain, if_neg (by rw [hinit]; exact Bool.false_ne_true), hcalc]
  have hrows : (generate_strikes s1).option_data
      = (strikesList A s.strike_step).map (mkRow s.underlying s.expiry) :=
    generate_strikes_rows s1 hstep hempty hA
  have hatm : (init_chain s (.ok P b a)).1.atm_strike = A := by
    rw [hinitc]
    show (generate_strikes s1).atm_strike = A
    rw [(generate_strikes_fields s1).2.2.2.1]
  have hdata : (init_chain s (.ok P b a)).1.option_data
      = (strikesList A s.strike_step).map (mkRow s.underlying s.expiry) := by
    rw [hinitc]
    exact hrows
  refine ⟨hatm, ?_, ?_, ?_, ?_, ?_⟩
  · rw [hatm]
    exact ⟨pyRound (P / (s.strike_step : ℚ)), mul_comm _ _⟩
  · rw [hdata, List.length_map, strikesList_length]
  · rw [hdata, List.map_map]
    have : (StrikeRow.strike ∘ mkRow s.underlying s.expiry)
        = StrikeInfo.strike := rfl
    rw [this]
    exact strikesList_strikes_nodup A s.strike_step hstep
  · rw [hdata, List.map_map]
    have : (StrikeRow.position ∘ mkRow s.underlying s.expiry)
        = StrikeInfo.position := rfl
    rw [this]
    exact strikesList_map_position A s.strike_step
  · intro r hr
    rw [hdata, List.mem_map] at hr
    obtain ⟨info, hinfo, rfl⟩ := hr
    have hchar := strikesList_info A s.strike_step info hinfo
    exact ⟨by rw [hatm]; exact hchar.1, hchar.2⟩

/-- Counterexample to C1 as stated: NIFTY (strike step 50) with underlying
price 20 > 0 rounds to ATM 0, and generation then produces 0 rows, not
41. -/
theorem C1_counterexample :
    (0 : ℚ) < 20 ∧ (mkManager "NIFTY" "28-AUG-25").strike_step = 50
    ∧ (init_chain (mkManager "NIFTY" "28-AUG-25")
        (.ok 20 none none)).1.atm_strike = 0
    ∧ (init_chain (mkManager "NIFTY" "28-AUG-25")
        (.ok 20 none none)).1.option_data.length = 0 := by decide

set_option maxRecDepth 20000 in
/-- Witness for C1 at NIFTY, LTP 24537: ATM 24550, 41 rows. -/
theorem C1_atm_and_grid_witness :
    csInitState.atm_strike = 24550 ∧ csInitState.option_data.length = 41 := by
  have h := C1_atm_and_grid (mkManager "NIFTY" "28-AUG-25") 24537 none none
    (by decide) (by decide) (by decide) (by decide) (by decide) (by decide)
  exact ⟨h.1.trans (by decide), h.2.2.1⟩

/-- Reduction of handle_quote_update for a positive-LTP tick on the
underlying symbol: the cached calculate_atm branch fires and the method
ends by writing bid and ask. -/
lemma handle_quote_update_eq (s : ChainState) (t : QuoteTick) (resp : ApiResp)
    (P : ℚ) (hsym : t.symbol.getD "" = s.underlying)
    (hltp : t.ltp = some P) (hP : 0 < P) :
    handle_quote_update s t resp
      = { (if s.atm_strike
              ≠ pyRound (P / (s.strike_step : ℚ)) * s.strike_step then
            (if s.option_data = [] then
              generate_strikes
                { s with
                    underlying_ltp := P
                    atm_strike := pyRound (P / (s.strike_step : ℚ))
                        * s.strike_step }
            else
              update_option_tags
                { s with
                    underlying_ltp := P
                    atm_strike := pyRound (P / (s.strike_step : ℚ))
                        * s.strike_step })
          else
            { s with
                underlying_ltp := P
                atm_strike := pyRound (P / (s.strike_step : ℚ))
                    * s.strike_step }) with
          underlying_bid := t.bid.getD 0
          underlying_ask := t.ask.getD 0 } := by
  unfold handle_quote_update
  rw [hsym, if_pos rfl, hltp]
  simp only [Option.getD_some]
  rw [if_pos (ne_of_gt hP)]
  have hcalc : calculate_atm { s with underlying_ltp := P } resp
      = (pyRound (P / (s.strike_step : ℚ)) * s.strike_step,
         { s with
             underlying_ltp := P
             atm_strike := pyRound (P / (s.strike_step : ℚ)) * s.strike_step }) := by
    unfold calculate_atm
    rw [if_pos (show 0 < ({ s with underlying_ltp := P } : ChainState).underlying_ltp
        from hP)]
  rw [hcalc]

/-- A freshly generated grid carries exactly one ATM tag. -/
lemma countATM_generated (u e : String) (A S : ℤ) :
    (((strikesList A S).map (mkRow u e)).countP
        (fun r => r.tag = "ATM")) = 1 := by
  rw [List.countP_map]
  refine Eq.trans (List.countP_congr ?_)
    (countP_strikesList_position A S 0 (by omega) (by omega))
  intro info hmem
  simp only [Function.comp, decide_eq_true_eq]
  show info.tag = "ATM" ↔ info.position = 0
  rw [(strikesList_info A S info hmem).2]
  exact get_position_tag_eq_ATM_iff info.position

/-- After re-tagging a grid generated at A1 with a new non-zero ATM inside
the window, exactly one row carries the ATM tag. -/
lemma countATM_update_tags (s2 : ChainState) (A1 : ℤ)
    (hstep : 0 < s2.strike_step)
    (hstrikes : s2.option_data.map StrikeRow.strike
      = gridPositions.map (fun k => A1 + k * s2.strike_step))
    (hA2 : s2.atm_strike ≠ 0)
    (hdvd : s2.strike_step ∣ (s2.atm_strike - A1))
    (hlow : A1 - 20 * s2.strike_step ≤ s2.atm_strike)
    (hhigh : s2.atm_strike ≤ A1 + 20 * s2.strike_step) :
    ((update_option_tags s2).option_data.countP
        (fun r => r.tag = "ATM")) = 1 := by
  obtain ⟨d, hd⟩ := hdvd
  have hatm : s2.atm_strike = A1 + s2.strike_step * d := by linarith
  have hdb1 : -20 ≤ d := by
    have h1 : s2.strike_step * (-20) ≤ s2.strike_step * d := by linarith
    exact (mul_le_mul_left hstep).mp h1
  have hdb2 : d ≤ 20 := by
    have h1 : s2.strike_step * d ≤ s2.strike_step * 20 := by linarith
    exact (mul_le_mul_left hstep).mp h1
  rw [update_option_tags, List.countP_map]
  have hfactor : ((fun (r : StrikeRow) => decide (r.tag = "ATM")) ∘ (fun r =>
      let pos := get_strike_position s2 r.strike
      { r with position := pos, tag := get_position_tag pos }))
      = ((fun k => decide (get_position_tag (get_strike_position s2 k) = "ATM"))
        ∘ StrikeRow.strike) := rfl
  rw [hfactor, ← List.countP_map, hstrikes, List.countP_map]
  refine Eq.trans (List.countP_congr ?_) (countP_gridPositions d hdb1 hdb2)
  intro k hk
  simp only [Function.comp, decide_eq_true_eq]
  have hposval : get_strike_position s2 (A1 + k * s2.strike_step) = k - d := by
    rw [get_strike_position, if_neg hA2, hatm]
    have harith : A1 + k * s2.strike_step - (A1 + s2.strike_step * d)
        = (k - d) * s2.strike_step := by ring
    rw [harith]
    exact Int.mul_fdiv_cancel _ (by omega)
  show get_position_tag (get_strike_position s2 (A1 + k * s2.strike_step))
      = "ATM" ↔ k = d
  rw [hposval, get_position_tag_eq_ATM_iff]
  omega

/-- C2 (amended): in any state whose grid strikes form the generated
window of 41 step-spaced strikes around a step-multiple centre A1 —
whatever its tags, positions, side quotes or current ATM — and which
already satisfies the invariant that exactly one row is tagged ATM, a
positive quote tick preserves the invariant provided the new rounded ATM
is non-zero and lies inside the window [A1 - 20S, A1 + 20S]: if the ATM
is unchanged the rows are untouched, otherwise re-tagging yields exactly
one ATM row.  (As stated the claim also covers moves outside the window,
where the code leaves no row tagged ATM; see the counterexample.) -/
theorem C2_unique_atm_tag (s : ChainState) (t : QuoteTick) (resp : ApiResp)
    (P : ℚ) (A1 : ℤ) (hstep : 0 < s.strike_step)
    (hsym : t.symbol.getD "" = s.underlying)
    (hltp : t.ltp = some P) (hP : 0 < P)
    (hstrikes : s.option_data.map StrikeRow.strike
      = gridPositions.map (fun k => A1 + k * s.strike_step))
    (hA1dvd : s.strike_step ∣ A1)
    (hinv : (s.option_data.countP (fun r => r.tag = "ATM")) = 1)
    (hA2 : pyRound (P / (s.strike_step : ℚ)) * s.strike_step ≠ 0)
    (hlow : A1 - 20 * s.strike_step
      ≤ pyRound (P / (s.strike_step : ℚ)) * s.strike_step)
    (hhigh : pyRound (P / (s.strike_step : ℚ)) * s.strike_step
      ≤ A1 + 20 * s.strike_step) :
    ((handle_quote_update s t resp).option_data.countP
        (fun r => r.tag = "ATM")) = 1 := by
  rw [handle_quote_update_eq s t resp P hsym hltp hP]
  by_cases hchange :
      s.atm_strike = pyRound (P / (s.strike_step : ℚ)) * s.strike_step
  · rw [if_neg (fun hcon => hcon hchange)]
    exact hinv
  · rw [if_pos hchange]
    have hlen : s.option_data.length = 41 := by
      have h := congrArg List.length hstrikes
      rw [List.length_map, List.length_map] at h
      exact h.trans (by decide)
    have hne : s.option_data ≠ [] := by
      intro h0
      rw [h0] at hlen
      exact absurd hlen (by decide)
    rw [if_neg hne]
    show ((update_option_tags
        { s with
            underlying_ltp := P
            atm_strike := pyRound (P / (s.strike_step : ℚ))
                * s.strike_step }).option_data.countP
        (fun r => r.tag = "ATM")) = 1
    refine countATM_update_tags _ A1 hstep hstrikes hA2 ?_ hlow hhigh
    exact dvd_sub ⟨pyRound (P / (s.strike_step : ℚ)), mul_comm _ _⟩ hA1dvd

set_option maxRecDepth 100000 in
/-- Counterexample to C2 as stated: on the initialised NIFTY grid at ATM
24550, a quote moving the underlying to 30000 moves ATM outside the
window, and re-tagging leaves zero rows tagged ATM, not one. -/
theorem C2_counterexample :
    csInitState.option_data.length = 41
    ∧ csInitState.atm_strike = 24550
    ∧ (handle_quote_update csInitState farTick ApiResp.err).atm_strike = 30000
    ∧ ((handle_quote_update csInitState farTick
          ApiResp.err).option_data.countP (fun r => r.tag = "ATM")) = 0 := by
  decide

set_option maxRecDepth 100000 in
/-- Witness for C2 on a live, non-pristine state: the grid after an ATM
move to 24600 and a depth update, hit by a quote moving ATM back to
24450 (inside the window around the generation centre 24550). -/
theorem C2_unique_atm_tag_witness :
    ((handle_quote_update liveState backTick
        ApiResp.err).option_data.countP (fun r => r.tag = "ATM")) = 1 :=
  C2_unique_atm_tag liveState backTick ApiResp.err 24450 24550 (by decide)
    (by decide) (by decide) (by decide) (by decide) (by decide) (by decide)
    (by decide) (by decide) (by decide)

/-- Frame of update_option_tags when the new ATM is non-zero: only
position and tag change, the new position being Python floor division. -/
lemma update_option_tags_frame (s2 : ChainState) (hA : s2.atm_strike ≠ 0) :
    (update_option_tags s2).option_data.length = s2.option_data.length
    ∧ (update_option_tags s2).option_data.map StrikeRow.strike
        = s2.option_data.map StrikeRow.strike
    ∧ (update_option_tags s2).option_data.map StrikeRow.ce_symbol
        = s2.option_data.map StrikeRow.ce_symbol
    ∧ (update_option_tags s2).option_data.map StrikeRow.pe_symbol
        = s2.option_data.map StrikeRow.pe_symbol
    ∧ (update_option_tags s2).option_data.map StrikeRow.ce_data
        = s2.option_data.map StrikeRow.ce_data
    ∧ (update_option_tags s2).option_data.map StrikeRow.pe_data
        = s2.option_data.map StrikeRow.pe_data
    ∧ (update_option_tags s2).option_data.map StrikeRow.position
        = s2.option_data.map (fun r =>
            Int.fdiv (r.strike - s2.atm_strike) s2.strike_step)
    ∧ (update_option_tags s2).option_data.map StrikeRow.tag
        = s2.option_data.map (fun r => get_position_tag
            (Int.fdiv (r.strike - s2.atm_strike) s2.strike_step)) := by
  unfold update_option_tags
  refine ⟨List.length_map _ _, ?_, ?_, ?_, ?_, ?_, ?_, ?_⟩ <;>
    rw [List.map_map] <;> refine List.map_congr_left (fun r _ => ?_)
  · rfl
  · rfl
  · rfl
  · rfl
  · rfl
  · show get_strike_position s2 r.strike = _
    rw [get_strike_position, if_neg hA]
  · show get_position_tag (get_strike_position s2 r.strike) = _
    rw [get_strike_position, if_neg hA]

/-- C4 (amended): when a positive quote tick changes ATM from A1 to a
non-zero A2 on an already generated grid, no row is added or removed and
every row keeps its strike, symbols and both quote sides; only position
and tag are recomputed, the position being the Python floor division
(strike - A2) // S, which equals the rational floor.  (As stated the claim
also covers A2 = 0, where the code instead sets every position to 0; see
the counterexample.) -/
theorem C4_retag_lossless (s : ChainState) (t : QuoteTick) (resp : ApiResp)
    (P : ℚ) (hstep : 0 < s.strike_step)
    (hsym : t.symbol.getD "" = s.underlying)
    (hltp : t.ltp = some P) (hP : 0 < P)
    (hne : s.option_data ≠ [])
    (hA2 : pyRound (P / (s.strike_step : ℚ)) * s.strike_step ≠ 0)
    (hchange : s.atm_strike
      ≠ pyRound (P / (s.strike_step : ℚ)) * s.strike_step) :
    (handle_quote_update s t resp).option_data.length = s.option_data.length
    ∧ (handle_quote_update s t resp).option_data.map StrikeRow.strike
        = s.option_data.map StrikeRow.strike
    ∧ (handle_quote_update s t resp).option_data.map StrikeRow.ce_symbol
        = s.option_data.map StrikeRow.ce_symbol
    ∧ (handle_quote_update s t resp).option_data.map StrikeRow.pe_symbol
        = s.option_data.map StrikeRow.pe_symbol
    ∧ (handle_quote_update s t resp).option_data.map StrikeRow.ce_data
        = s.option_data.map StrikeRow.ce_data
    ∧ (handle_quote_update s t resp).option_data.map StrikeRow.pe_data
        = s.option_data.map StrikeRow.pe_data
    ∧ (handle_quote_update s t resp).atm_strike
        = pyRound (P / (s.strike_step : ℚ)) * s.strike_step
    ∧ (handle_quote_update s t resp).option_data.map StrikeRow.position
        = s.option_data.map (fun r => Int.fdiv
            (r.strike - pyRound (P / (s.strike_step : ℚ)) * s.strike_step)
            s.strike_step)
    ∧ (handle_quote_update s t resp).option_data.map StrikeRow.tag
        = s.option_data.map (fun r => get_position_tag (Int.fdiv
            (r.strike - pyRound (P / (s.strike_step : ℚ)) * s.strike_step)
            s.strike_step))
    ∧ ∀ r ∈ s.option_data,
        Int.fdiv
            (r.strike - pyRound (P / (s.strike_step : ℚ)) * s.strike_step)
            s.strike_step
          = ⌊((r.strike - pyRound (P / (s.strike_step : ℚ))
                * s.strike_step : ℤ) : ℚ) / ((s.strike_step : ℤ) : ℚ)⌋ := by
  rw [handle_quote_update_eq s t resp P hsym hltp hP, if_pos hchange,
    if_neg hne]
  have hframe := update_option_tags_frame
    { s with
        underlying_ltp := P
        atm_strike := pyRound (P / (s.strike_step : ℚ)) * s.strike_step }
    hA2
  exact ⟨hframe.1, hframe.2.1, hframe.2.2.1, hframe.2.2.2.1,
    hframe.2.2.2.2.1, hframe.2.2.2.2.2.1, rfl, hframe.2.2.2.2.2.2.1,
    hframe.2.2.2.2.2.2.2,
    fun r _ => fdiv_eq_floor
      (r.strike - pyRound (P / (s.strike_step : ℚ)) * s.strike_step)
      s.strike_step hstep⟩

set_option maxRecDepth 100000 in
/-- Counterexample to C4 as stated: the tiny tick drives ATM from 24550 to
0; re-tagging then sets every position to 0, while the claimed floor
division formula yields 471 for the first row. -/
theorem C4_counterexample :
    csInitState.atm_strike = 24550
    ∧ (handle_quote_update csInitState tinyTick ApiResp.err).atm_strike = 0
    ∧ ((handle_quote_update csInitState tinyTick
          ApiResp.err).option_data.map StrikeRow.position)
        = List.replicate 41 0
    ∧ csInitState.option_data.map (fun r => Int.fdiv
          (r.strike
            - (handle_quote_update csInitState tinyTick ApiResp.err).atm_strike)
          csInitState.strike_step)
        ≠ List.replicate 41 0 := by decide

set_option maxRecDepth 100000 in
/-- Witness for C4 at the in-window move from ATM 24550 to 24600. -/
theorem C4_retag_lossless_witness :
    (handle_quote_update csInitState nearTick ApiResp.err).atm_strike = 24600
    ∧ (handle_quote_update csInitState nearTick
        ApiResp.err).option_data.length = 41 := by
  have h := C4_retag_lossless csInitState nearTick ApiResp.err 24610
    (by decide) (by decide) (by decide) (by decide) (by decide) (by decide)
    (by decide)
  exact ⟨h.2.2.2.2.2.2.1.trans (by decide), h.1.trans (by decide)⟩

/-- C8: symbol construction is deterministic: for a dash-separated expiry
the symbol is underlying, two-digit day, first three letters of the
uppercased month, the hardcoded year 25, the integral strike without a
decimal point, and the option type. -/
theorem C8_symbol_construction (u e d m : String) (rest : List String)
    (strike : ℚ) (ot : String)
    (hsplit : pySplitDash e = d :: m :: rest) (hint : strike.den = 1) :
    construct_option_symbol u e strike ot
      = u ++ (pyZfill2 d ++ pyTakeStr (pyUpper m) 3) ++ "25"
          ++ toString strike.num ++ ot := by
  unfold construct_option_symbol
  rw [hsplit, hint]
  simp

/-- Witness for C8 at the concrete scenario of the specification. -/
theorem C8_symbol_construction_witness :
    construct_option_symbol "NIFTY" "28-AUG-25" 24600 "CE"
      = "NIFTY28AUG2524600CE" :=
  (C8_symbol_construction "NIFTY" "28-AUG-25" "28" "AUG" ["25"] 24600 "CE"
    (by decide) (by decide)).trans (by decide)

/-- C9: in every snapshot, total volume is the sum of the CE and PE
volumes, pcr is 0 whenever the total CE open interest is 0 regardless of
the PE total, and otherwise (for the non-negative totals the data model
produces) pcr is the rounded ratio. -/
theorem C9_market_metrics (s : ChainState) :
    (calculate_market_metrics s).total_volume
        = (calculate_market_metrics s).total_ce_volume
          + (calculate_market_metrics s).total_pe_volume
    ∧ ((calculate_market_metrics s).total_ce_oi = 0 →
        (calculate_market_metrics s).pcr = 0)
    ∧ (0 ≤ (calculate_market_metrics s).total_ce_oi →
        (calculate_market_metrics s).total_ce_oi ≠ 0 →
        (calculate_market_metrics s).pcr
          = pyRound2 (((calculate_market_metrics s).total_pe_oi : ℚ)
              / ((calculate_market_metrics s).total_ce_oi : ℚ))) := by
  refine ⟨rfl, ?_, ?_⟩
  · intro h0
    simp only [calculate_market_metrics] at h0 ⊢
    rw [h0, if_neg (by omega)]
    exact pyRound2_zero
  · intro hle hne
    have hpos : 0 < ((s.option_data.map (fun o => o.ce_data.oi)).sum : ℤ) := by
      simp only [calculate_market_metrics] at hle hne
      omega
    simp only [calculate_market_metrics, if_pos hpos]

/-- Witness for C9 on a concrete one-row state with CE oi 4 and PE oi 6. -/
theorem C9_market_metrics_witness :
    (calculate_market_metrics sampleMetricsState).pcr
      = pyRound2 ((6 : ℚ) / 4) := by
  have h := (C9_market_metrics sampleMetricsState).2.2
  exact (h (by decide) (by decide)).trans (by decide)

/-- C10: a quote tick for the underlying whose ltp is missing, zero or
otherwise falsy leaves the whole engine state unchanged, bid and ask
included, because every update sits under the non-zero-ltp guard. -/
theorem C10_falsy_ltp_noop (s : ChainState) (t : QuoteTick) (resp : ApiResp)
    (hsym : t.symbol.getD "" = s.underlying) (hltp : t.ltp.getD 0 = 0) :
    handle_quote_update s t resp = s := by
  unfold handle_quote_update
  rw [hsym, if_pos rfl, hltp]
  simp

/-- Witness for C10: a zero-ltp quote tick on a freshly built manager. -/
theorem C10_falsy_ltp_noop_witness :
    handle_quote_update (mkManager "NIFTY" "28-AUG-25")
      { symbol := some "NIFTY", ltp := some 0, bid := some 3, ask := some 4 }
      ApiResp.err = mkManager "NIFTY" "28-AUG-25" :=
  C10_falsy_ltp_noop (mkManager "NIFTY" "28-AUG-25")
    { symbol := some "NIFTY", ltp := some 0, bid := some 3, ask := some 4 }
    ApiResp.err (by decide) (by decide)

/-- C3 (amended): on a fresh engine, when the quote fetch fails or yields
a non-positive LTP, initialize leaves ATM at 0 and generates no rows and
no routing entries — but it still returns True: the failure is silent, not
a recoverable error result.  (As stated the claim expects an error return;
see the counterexample.) -/
theorem C3_silent_failure (s : ChainState) (resp : ApiResp)
    (hinit : s.initialized = false) (hcache : s.underlying_ltp ≤ 0)
    (hatm : s.atm_strike = 0) (hrows : s.option_data = [])
    (hroutes : s.subscription_map = [])
    (hfail : resp = ApiResp.err
      ∨ ∃ ltp b a, resp = ApiResp.ok ltp b a ∧ ltp ≤ 0) :
    (init_chain s resp).2 = true
    ∧ (init_chain s resp).1.atm_strike = 0
    ∧ (init_chain s resp).1.option_data = []
    ∧ (init_chain s resp).1.subscription_map = [] := by
  have hnlt : ¬ (0 < s.underlying_ltp) := not_lt.mpr hcache
  have hca : (calculate_atm s resp).2.atm_strike = 0
      ∧ (calculate_atm s resp).2.option_data = []
      ∧ (calculate_atm s resp).2.subscription_map = [] := by
    rcases hfail with rfl | ⟨ltp, b, a, rfl, hltp⟩
    · unfold calculate_atm
      rw [if_neg hnlt]
      exact ⟨hatm, hrows, hroutes⟩
    · unfold calculate_atm
      rw [if_neg hnlt]
      simp only [if_neg (not_lt.mpr hltp)]
      exact ⟨hatm, hrows, hroutes⟩
  have hgen : generate_strikes (calculate_atm s resp).2
      = (calculate_atm s resp).2 := by
    unfold generate_strikes
    rw [if_pos hca.1]
  have hic : init_chain s resp
      = ({ generate_strikes (calculate_atm s resp).2 with
            initialized := true }, true) := by
    rw [init_chain, if_neg (by rw [hinit]; exact Bool.false_ne_true)]
  rw [hic, hgen]
  exact ⟨rfl, hca.1, hca.2.1, hca.2.2⟩

/-- Counterexample to C3 as stated: on a failed fetch, initialize returns
True (success), not a recoverable error, while producing no rows. -/
theorem C3_counterexample :
    (init_chain (mkManager "NIFTY" "28-AUG-25") ApiResp.err).2 = true
    ∧ (init_chain (mkManager "NIFTY" "28-AUG-25")
        ApiResp.err).1.atm_strike = 0
    ∧ (init_chain (mkManager "NIFTY" "28-AUG-25")
        ApiResp.err).1.option_data = [] := by decide

/-- Witness for C3 at a success response carrying a zero LTP. -/
theorem C3_silent_failure_witness :
    (init_chain (mkManager "BANKNIFTY" "28-AUG-25")
        (ApiResp.ok 0 none none)).2 = true
    ∧ (init_chain (mkManager "BANKNIFTY" "28-AUG-25")
        (ApiResp.ok 0 none none)).1.option_data = [] := by
  have h := C3_silent_failure (mkManager "BANKNIFTY" "28-AUG-25")
    (ApiResp.ok 0 none none) (by decide) (by decide) (by decide) (by decide)
    (by decide) (Or.inr ⟨0, none, none, rfl, le_refl 0⟩)
  exact ⟨h.1, h.2.2.1⟩

/-- Frame of update_option_depth on the CE side. -/
lemma update_option_depth_frame (s : ChainState) (strike : ℤ)
    (d : SideQuote) :
    (update_option_depth s strike "CE" d).option_data
        = s.option_data.map (fun r =>
            if r.strike = strike then { r with ce_data := d } else r)
    ∧ (update_option_depth s strike "CE" d).subscription_map
        = s.subscription_map
    ∧ (update_option_depth s strike "CE" d).underlying = s.underlying
    ∧ (update_option_depth s strike "CE" d).underlying_ltp
        = s.underlying_ltp
    ∧ (update_option_depth s strike "CE" d).underlying_bid
        = s.underlying_bid
    ∧ (update_option_depth s strike "CE" d).underlying_ask
        = s.underlying_ask
    ∧ (update_option_depth s strike "CE" d).atm_strike = s.atm_strike := by
  unfold update_option_depth
  by_cases hany : (s.option_data.any (fun r => r.strike = strike)) = true
  · rw [if_pos hany]
    refine ⟨?_, rfl, rfl, rfl, rfl, rfl, rfl⟩
    show s.option_data.map _ = _
    refine List.map_congr_left (fun r _ => ?_)
    by_cases hr : r.strike = strike
    · rw [if_pos hr, if_pos hr, if_pos rfl]
    · rw [if_neg hr, if_neg hr]
  · rw [if_neg hany]
    refine ⟨?_, rfl, rfl, rfl, rfl, rfl, rfl⟩
    have hno : ∀ r ∈ s.option_data, ¬ (r.strike = strike) := by
      simpa using hany
    have hmap : s.option_data.map (fun r =>
        if r.strike = strike then { r with ce_data := d } else r)
          = s.option_data := by
      have h1 : s.option_data.map (fun r =>
          if r.strike = strike then { r with ce_data := d } else r)
            = s.option_data.map id :=
        List.map_congr_left (fun r hr => by rw [if_neg (hno r hr)]; rfl)
      rw [h1, List.map_id]
    exact hmap.symm

/-- C5: a depth tick routed to a generated CE symbol replaces only that
row's CE side; the PE side, all other rows, the routing table and the
underlying fields are untouched; a tick with an unknown symbol leaves the
whole state unchanged (and, the embedding being total, raises nothing). -/
theorem C5_depth_routing (s : ChainState) (t : DepthTick) :
    (∀ info : RouteInfo,
      s.subscription_map.lookup (effSymbol t) = some info →
      info.otype = "CE" →
      (handle_depth_update s t).option_data
          = s.option_data.map (fun r =>
              if r.strike = info.strike then
                { r with ce_data := mkDepthData t }
              else r)
      ∧ (handle_depth_update s t).subscription_map = s.subscription_map
      ∧ (handle_depth_update s t).underlying = s.underlying
      ∧ (handle_depth_update s t).underlying_ltp = s.underlying_ltp
      ∧ (handle_depth_update s t).underlying_bid = s.underlying_bid
      ∧ (handle_depth_update s t).underlying_ask = s.underlying_ask
      ∧ (handle_depth_update s t).atm_strike = s.atm_strike)
    ∧ (s.subscription_map.lookup (effSymbol t) = none →
        handle_depth_update s t = s) := by
  constructor
  · intro info hsome hce
    unfold handle_depth_update
    rw [hsome]
    have h := update_option_depth_frame s info.strike (mkDepthData t)
    rw [← hce] at h
    exact h
  · intro hnone
    unfold handle_depth_update
    rw [hnone]

set_option maxRecDepth 100000 in
/-- Witness for C5: the CE depth tick for strike 24600 on the initialised
grid, and an unknown-symbol tick. -/
theorem C5_depth_routing_witness :
    (handle_depth_update csInitState ceDepthTick).subscription_map
        = csInitState.subscription_map
    ∧ (handle_depth_update csInitState ceDepthTick).atm_strike
        = csInitState.atm_strike
    ∧ handle_depth_update csInitState unknownTick = csInitState := by
  have h1 := (C5_depth_routing csInitState ceDepthTick).1
    { strike := 24600, otype := "CE" } (by decide) (by decide)
  have h2 := (C5_depth_routing csInitState unknownTick).2 (by decide)
  exact ⟨h1.2.1, h1.2.2.2.2.2.2, h2⟩

end OptionChain

namespace WSM

/-- The try/except loop invokes every handler, in order, whatever each
handler does: a raising handler (step returning an error) never prevents
the remaining handlers from seeing the message. -/
lemma runHandlers_invoked {H σ : Type} (step : H → MData → σ → Except Unit σ)
    (hs : List H) (md : MData) (st : σ) :
    (runHandlers step hs md st).2 = hs := by
  unfold runHandlers
  suffices h : ∀ acc : σ × List H,
      (hs.foldl (fun acc h =>
        match step h md acc.1 with
        | .ok st2 => (st2, acc.2 ++ [h])
        | .error _ => (acc.1, acc.2 ++ [h])) acc).2 = acc.2 ++ hs by
    have h2 := h (st, [])
    rw [h2]
    exact List.nil_append hs
  induction hs with
  | nil => intro acc; simp
  | cons hh tt ih =>
    intro acc
    rw [List.foldl_cons]
    cases hstep : step hh md acc.1 with
    | ok st2 => exact (ih (st2, acc.2 ++ [hh])).trans (by simp)
    | error e => exact (ih (acc.1, acc.2 ++ [hh])).trans (by simp)

/-- C6 (amended): every non-auth message carrying a market_data type or an
ltp field is classified depth-mode when its payload has a depth or bids
field, else quote-mode when it has an open field, else ltp-mode; depth-
and quote-mode messages are delivered to every handler registered for that
mode in registration order, for every handler behaviour (so a raising
handler does not stop delivery); but ltp-mode messages are delivered to no
handler at all — the source has no ltp dispatch branch.  (As stated the
claim promises delivery to ltp handlers too; see the counterexample.) -/
theorem C6_dispatch (H σ : Type) (step : H → MData → σ → Except Unit σ)
    (w : WSState H) (st : σ) (m : WsMsg)
    (hauth : m.mtype ≠ some "auth")
    (hmarket : m.mtype = some "market_data" ∨ m.ltp ≠ none) :
    (((m.nested.getD m.topData).hasDepth = true
        ∨ (m.nested.getD m.topData).hasBids = true) →
      (on_message step w st m).2.2.2 = w.depth_handlers)
    ∧ (¬ ((m.nested.getD m.topData).hasDepth = true
          ∨ (m.nested.getD m.topData).hasBids = true) →
        (m.nested.getD m.topData).hasOpen = true →
        (on_message step w st m).2.2.2 = w.quote_handlers)
    ∧ (¬ ((m.nested.getD m.topData).hasDepth = true
          ∨ (m.nested.getD m.topData).hasBids = true) →
        ¬ (m.nested.getD m.topData).hasOpen = true →
        (on_message step w st m).2.2.2 = [])
    ∧ (on_message step w st m).1 = w := by
  have hred : on_message step w st m
      = (w, [], process_market_data step w st m) := by
    unfold on_message
    rw [if_neg hauth, if_pos hmarket]
  refine ⟨?_, ?_, ?_, by rw [hred]⟩
  · intro hdb
    have hmode : dataMode (m.nested.getD m.topData) = "depth" := by
      unfold dataMode
      rcases hdb with h | h <;> rw [h] <;> simp
    rw [hred]
    show (process_market_data step w st m).2 = w.depth_handlers
    unfold process_market_data
    rw [hmode, if_pos rfl]
    exact runHandlers_invoked step w.depth_handlers _ st
  · intro hdb hopen
    simp only [not_or, Bool.not_eq_true] at hdb
    have hmode : dataMode (m.nested.getD m.topData) = "quote" := by
      unfold dataMode
      rw [hdb.1, hdb.2, hopen]
      simp
    rw [hred]
    show (process_market_data step w st m).2 = w.quote_handlers
    unfold process_market_data
    rw [hmode, if_neg (by decide : ¬ ("quote" : String) = "depth"),
      if_pos rfl]
    exact runHandlers_invoked step w.quote_handlers _ st
  · intro hdb hopen
    simp only [not_or, Bool.not_eq_true] at hdb
    simp only [Bool.not_eq_true] at hopen
    have hmode : dataMode (m.nested.getD m.topData) = "ltp" := by
      unfold dataMode
      rw [hdb.1, hdb.2, hopen]
      simp
    rw [hred]
    show (process_market_data step w st m).2 = []
    unfold process_market_data
    rw [hmode, if_neg (by decide : ¬ ("ltp" : String) = "depth"),
      if_neg (by decide : ¬ ("ltp" : String) = "quote")]

/-- Counterexample to C6 as stated: a pure LTP tick passes the market-data
gate and is classified ltp-mode, but the registered ltp handler is never
invoked. -/
theorem C6_counterexample :
    wsLtp.ltp_handlers = [0]
    ∧ (on_message (fun (_ : ℕ) (_ : MData) (s : Unit) => Except.ok s)
        wsLtp () ltpMsg).2.2.2 = [] := by decide

/-- Witness for C6: a depth message reaches both depth handlers in
registration order, also when the first handler raises. -/
theorem C6_dispatch_witness :
    (on_message (fun (_ : ℕ) (_ : MData) (s : Unit) => Except.ok s)
        wsDD () depthMsg).2.2.2 = [0, 1]
    ∧ (on_message (fun (h : ℕ) (_ : MData) (s : Unit) =>
          if h = 0 then Except.error () else Except.ok s)
        wsDD () depthMsg).2.2.2 = [0, 1] := by
  have h1 := (C6_dispatch ℕ Unit
    (fun _ _ s => Except.ok s) wsDD () depthMsg
    (by decide) (Or.inl (by decide))).1 (Or.inl (by decide))
  have h2 := (C6_dispatch ℕ Unit
    (fun h _ s => if h = 0 then Except.error () else Except.ok s)
    wsDD () depthMsg (by decide) (Or.inl (by decide))).1 (Or.inl (by decide))
  exact ⟨h1.trans (by decide), h2.trans (by decide)⟩

/-- subscribe on an authenticated, connected manager for an already
recorded subscription: state unchanged, message sent. -/
lemma subscribe_recorded {H : Type} (w : WSState H) (sub : Subscription)
    (hws : w.wsPresent = true) (hauth : w.authenticated = true)
    (hmem : sub ∈ w.subscriptions) :
    subscribe w sub = (w, true, [mkSubMsg sub]) := by
  unfold subscribe
  rw [if_neg (by rw [hws, hauth]; decide)]
  rw [if_pos hmem]

/-- resubscribe_all on an authenticated, connected manager re-sends every
recorded subscription in order and leaves the state unchanged. -/
lemma resubscribe_all_eq {H : Type} (w : WSState H)
    (hws : w.wsPresent = true) (hauth : w.authenticated = true) :
    resubscribe_all w = (w, w.subscriptions.map mkSubMsg) := by
  unfold resubscribe_all
  suffices h : ∀ (l : List Subscription) (acc : List SubMsg),
      (∀ x ∈ l, x ∈ w.subscriptions) →
      (l.foldl (fun acc sub =>
        let r := subscribe acc.1 sub
        (r.1, acc.2 ++ r.2.2)) (w, acc)) = (w, acc ++ l.map mkSubMsg) by
    have h2 := h w.subscriptions [] (fun x hx => hx)
    rw [h2, List.nil_append]
  intro l
  induction l with
  | nil => intro acc _; simp
  | cons x t ih =>
    intro acc hsub
    rw [List.foldl_cons]
    have hx : subscribe w x = (w, true, [mkSubMsg x]) :=
      subscribe_recorded w x hws hauth (hsub x (by simp))
    show (t.foldl _ ((subscribe w x).1, acc ++ (subscribe w x).2.2)) = _
    rw [hx]
    have ht := ih (acc ++ [mkSubMsg x]) (fun y hy => hsub y (by simp [hy]))
    rw [ht]
    simp

/-- C7 (amended): on an auth-success message the connection becomes
authenticated and every RECORDED subscription is re-sent; subscribe calls
that were rejected while unauthenticated were never recorded and are not
replayed.  (As stated the claim includes rejected calls in the replay; see
the counterexample.) -/
theorem C7_resubscribe_on_auth (H σ : Type)
    (step : H → MData → σ → Except Unit σ) (w : WSState H) (st : σ)
    (m : WsMsg) (hws : w.wsPresent = true)
    (hty : m.mtype = some "auth") (hst : m.status = some "success") :
    (on_message step w st m).1.authenticated = true
    ∧ (on_message step w st m).2.1 = w.subscriptions.map mkSubMsg
    ∧ (on_message step w st m).1.subscriptions = w.subscriptions := by
  have hred : on_message step w st m
      = (if ({ w with authenticated := true } : WSState H).subscriptions ≠ []
          then
            ((resubscribe_all { w with authenticated := true }).1,
             (resubscribe_all { w with authenticated := true }).2, st, [])
          else ({ w with authenticated := true }, [], st, [])) := by
    unfold on_message
    rw [if_pos hty, if_pos hst]
  rw [hred]
  by_cases hsubs : ({ w with authenticated := true } : WSState H).subscriptions
      ≠ []
  · rw [if_pos hsubs]
    have hr := resubscribe_all_eq { w with authenticated := true }
      (by exact hws) rfl
    rw [hr]
    exact ⟨rfl, rfl, rfl⟩
  · rw [if_neg hsubs]
    have hempty : w.subscriptions = [] := not_ne_iff.mp hsubs
    refine ⟨rfl, ?_, rfl⟩
    rw [hempty]
    rfl

/-- Counterexample to C7 as stated: a subscribe call rejected before
authentication is not recorded, and the auth-success replay re-sends
nothing. -/
theorem C7_counterexample :
    (subscribe (connect (initWS ℕ)) subA).2.1 = false
    ∧ (subscribe (connect (initWS ℕ)) subA).1.subscriptions = []
    ∧ (on_message (fun (_ : ℕ) (_ : MData) (s : Unit) => Except.ok s)
        (subscribe (connect (initWS ℕ)) subA).1 () authMsg).2.1 = [] := by
  decide

/-- Witness for C7: an auth-success on a connected manager with one
recorded subscription replays exactly that subscription. -/
theorem C7_resubscribe_on_auth_witness :
    (on_message (fun (_ : ℕ) (_ : MData) (s : Unit) => Except.ok s)
        wsWithSub () authMsg).1.authenticated = true
    ∧ (on_message (fun (_ : ℕ) (_ : MData) (s : Unit) => Except.ok s)
        wsWithSub () authMsg).2.1 = [mkSubMsg subA] := by
  have h := C7_resubscribe_on_auth ℕ Unit
    (fun _ _ s => Except.ok s) wsWithSub () authMsg
    (by decide) (by decide) (by decide)
  exact ⟨h.1, h.2.1.trans (by decide)⟩

end WSM
